import Mathlib

/-!
Verification of cmyui/conway: Conway's Game of Life.

The repository has two implementations:
* `src/game.py` — class `Grid` with a pure, double-buffered step
  (`update_grid_full`) and a tuple-returning neighbour scan (`get_neighbours`);
* `src/main.py` — class `Life` with an in-place step (`apply_rules`) that
  reads neighbour counts from a snapshot `prev_cells_table`.

We embed both shallowly: cell tables are `List (List Bool)` (the `Cell`
wrapper class of game.py holds a single `alive : bool`, modelled as the
`Bool` itself), Python integers are `Int`, and Python list indexing /
slicing is modelled by explicit functions mirroring CPython semantics
(negative indices count from the end; a plain index out of range raises,
modelled as `none`).
-/

namespace Conway

/-- CPython list index normalisation for a plain subscript `l[i]`:
a nonnegative `i` must satisfy `i < len`; a negative `i` addresses
`len + i` when that is still nonnegative; otherwise the access raises
`IndexError` (modelled as `none`). -/
def pyIndex (len : Nat) (i : Int) : Option Nat :=
  if 0 ≤ i then
    if i < (len : Int) then some i.toNat else none
  else
    if 0 ≤ (len : Int) + i then some ((len : Int) + i).toNat else none

/-- Python `l[i]` on a list: `none` models an `IndexError`. -/
def pyGet {α : Type} (l : List α) (i : Int) : Option α :=
  (pyIndex l.length i).bind l.get?

/-- CPython slice-bound normalisation for `l[a:b]`: negative bounds count
from the end, and bounds are clamped into `[0, len]` (slicing never
raises). -/
def sliceIdx (len : Nat) (i : Int) : Nat :=
  min (if 0 ≤ i then i.toNat else ((len : Int) + i).toNat) len

/-- Python `l[a:b]`. -/
def pySlice {α : Type} (l : List α) (a b : Int) : List α :=
  (l.take (sliceIdx l.length b)).drop (sliceIdx l.length a)

/-- Python `range(start, stop, step)` for `step ≠ 0` (the sources only call
`range` with a nonzero step or the 1-argument form; `step = 0` raises
`ValueError` in Python and is modelled as the empty range, a case no
theorem below exercises). -/
def pyRange (start stop step : Int) : List Int :=
  if 0 < step then
    (List.range (((stop - start + step - 1) / step).toNat)).map
      (fun (k : Nat) => start + (k : Int) * step)
  else if step < 0 then
    (List.range (((start - stop + (-step) - 1) / (-step)).toNat)).map
      (fun (k : Nat) => start + (k : Int) * step)
  else []

/-- Total read of a cell table at nonnegative (Nat) coordinates, defaulting
to dead; used only where the source has already bounds-checked the access. -/
def get2d (t : List (List Bool)) (r c : Nat) : Bool :=
  (t.getD r []).getD c false

/-- Checked read of a cell table at Python (Int) coordinates:
`t[r][c]` with `none` modelling an `IndexError` in either subscript. -/
def get2d? (t : List (List Bool)) (r c : Int) : Option Bool :=
  (pyGet t r).bind (fun row => pyGet row c)

/-- Write one cell of a table (coordinates known in range at call sites;
`List.set` is a no-op out of range, like the guarded writes in the source). -/
def set2d (t : List (List Bool)) (r c : Nat) (b : Bool) : List (List Bool) :=
  t.set r ((t.getD r []).set c b)

/-- The table is a rectangular `h × w` matrix. -/
def Rect (t : List (List Bool)) (h w : Nat) : Prop :=
  t.length = h ∧ ∀ row ∈ t, row.length = w

instance (t : List (List Bool)) (h w : Nat) : Decidable (Rect t h w) :=
  inferInstanceAs (Decidable (t.length = h ∧ ∀ row ∈ t, row.length = w))

/-! ## game.py: class `Grid` -/

/-- `Grid` from src/game.py: `x_size` columns, `y_size` rows, and the cell
matrix `cells` (a `y_size`-long list of `x_size`-long rows). Sizes are kept
as Python ints. -/
structure Grid where
  x_size : Int
  y_size : Int
  cells : List (List Bool)

/-- `Grid.__init__` (game.py lines 17–21):
`[[Cell() for i in range(x_size)] for i in range(y_size)]` — every cell
starts dead; a `range` over a non-positive count is empty, matching
`Int.toNat`. The constructor performs no validation and no operation that
can raise for integer arguments. -/
def Grid.init (x_size y_size : Int) : Grid :=
  { x_size := x_size
    y_size := y_size
    cells := List.replicate y_size.toNat (List.replicate x_size.toNat false) }

/-- Fallible view of `Grid.__init__`: `none` would model an exception
escaping the constructor. The body raises for no integer arguments, so this
is `some` always. -/
def Grid.initE (x_size y_size : Int) : Option Grid :=
  some (Grid.init x_size y_size)

/-- `Grid.get_cell` (game.py lines 27–29). The method is decorated
`@property` (next to the source's own comment "Not sure if this is proper
use case?") while its getter still takes `(self, x, y)`: in CPython the
attribute access `g.get_cell` invokes the getter with `self` alone, so
every use — `g.get_cell(x, y)` included — raises
`TypeError: get_cell() missing 2 required positional arguments` before the
body `return self.cells[x][y]` (line 29) can subscript anything. Modelled
as the access that raises (`none`) at all coordinates; the body is dead
code (its one call site, game.py line 77, is commented out). -/
def Grid.get_cell (g : Grid) (x y : Int) : Option Bool :=
  none

/-- `Grid.flip_cell` (game.py lines 46–48):
`self.cells[y][x].alive = not self.cells[y][x].alive` — here the second
argument subscripts the outer (row) list. `none` models the `IndexError`
raised when either subscript is out of range. -/
def Grid.flip_cell (g : Grid) (x y : Int) : Option Grid :=
  (pyIndex g.cells.length y).bind (fun yi =>
    (pyIndex (g.cells.getD yi []).length x).map (fun xi =>
      { g with cells := g.cells.set yi ((g.cells.getD yi []).set xi
          (!(g.cells.getD yi []).getD xi false)) }))

/-- The three consecutive ints `[a-1, a, a+1]`, i.e. Python
`range(a - 1, a + 2)`. -/
def range3 (a : Int) : List Int := [a - 1, a, a + 1]

/-- The effect of one iteration of the inner `x` loop of
`Grid.get_neighbours` (game.py lines 61–67): `none` when the
`continue` fires (the centre `(_x, _y)` itself), `some none` when a Python
`None` is appended (column out of zone), `some (some b)` when the
neighbour's alive state `b` is appended. -/
def neighbourEntry (g : Grid) (X Y y x : Int) : Option (Option Bool) :=
  if y = Y ∧ x = X then none
  else if x < 0 ∨ x = g.x_size then some none
  else some (some (get2d g.cells y.toNat x.toNat))

/-- The entries one iteration of the outer `y` loop of
`Grid.get_neighbours` (game.py lines 57–67) appends: `[None, None, None]`
for a row out of zone, otherwise the surviving inner-loop entries. -/
def neighbourRow (g : Grid) (X Y y : Int) : List (Option Bool) :=
  if y < 0 ∨ y = g.y_size then [none, none, none]
  else (range3 X).filterMap (neighbourEntry g X Y y)

/-- `Grid.get_neighbours` (game.py lines 50–69): scans rows `_y-1 .. _y+1`;
a row with `y < 0 or y == y_size` contributes `[None, None, None]`; inside
an existing row, the centre `(_x, _y)` itself is skipped, an `x` with
`x < 0 or x == x_size` contributes `None`, and otherwise the neighbour's
alive state is appended. -/
def Grid.get_neighbours (g : Grid) (X Y : Int) : List (Option Bool) :=
  ((range3 Y).map (neighbourRow g X Y)).flatten

/-- `sum(i if i is not None else 0 for i in neighbours)` (game.py lines 80
and 84): `None` counts 0, `False` counts 0, `True` counts 1. -/
def optSum (l : List (Option Bool)) : Nat :=
  (l.map (fun o => (o.getD false).toNat)).sum

/-- What one inner-loop step contributes to the neighbour sum: a skipped
step contributes nothing, an appended entry contributes its `optSum`
weight. -/
def entryVal : Option (Option Bool) → Nat
  | none => 0
  | some o => (o.getD false).toNat

/-- The next state of one cell under game.py's rule branches
(update_grid_full lines 78–85): a live cell survives iff its neighbour sum
is in `range(2, 4)`; a dead cell is born iff the sum is exactly 3. -/
def gameRule (alive : Bool) (n : Nat) : Bool :=
  if alive then decide (2 ≤ n ∧ n < 4) else decide (n = 3)

/-- `Grid.update_grid_full` (game.py lines 71–89): allocates a fresh all-dead
`y_size × x_size` matrix, fills each cell from the rule applied to the old
matrix's neighbour sums, and installs the new matrix. Reads only the old
`cells`; writes only the fresh matrix. -/
def Grid.update_grid_full (g : Grid) : Grid :=
  { g with cells :=
      (List.range g.y_size.toNat).map (fun y =>
        (List.range g.x_size.toNat).map (fun x =>
          gameRule (get2d g.cells y x)
            (optSum (g.get_neighbours (x : Int) (y : Int))))) }

/-! ## main.py: class `Life` -/

/-- `Life` from src/main.py. `start_time` is the opaque wall-clock value
returned by `time.time()` (an `Int` stands in for it; nothing ever computes
with it). `new_width`/`new_height` start as `None` and hold a pending
resize request. -/
structure Life where
  width : Int
  height : Int
  clear_screen : Bool
  cells_table : List (List Bool)
  prev_cells_table : List (List Bool)
  start_time : Int
  frame_count : Nat
  should_regenerate_screen : Bool
  new_width : Option Int
  new_height : Option Int

/-- `Life.__init__` (main.py lines 29–54) with explicit dimensions:
both buffers are `[[False] * width] * height` (all cells dead; Python list
repetition with a non-positive count yields the empty list). `t` is the
`time.time()` sample. No validation is performed and no operation in the
body can raise for integer dimensions. -/
def Life.init (t width height : Int) (clear_screen : Bool) : Life :=
  { width := width
    height := height
    clear_screen := clear_screen
    cells_table := List.replicate height.toNat (List.replicate width.toNat false)
    prev_cells_table := List.replicate height.toNat (List.replicate width.toNat false)
    start_time := t
    frame_count := 0
    should_regenerate_screen := false
    new_width := none
    new_height := none }

/-- Fallible view of `Life.__init__`: `none` would model an exception
escaping the constructor; the body raises for no integer dimensions, so
this is `some` always. -/
def Life.initE (t width height : Int) (clear_screen : Bool) : Option Life :=
  some (Life.init t width height clear_screen)

/-- The eight relative neighbour coordinates probed by
`Life.get_alive_neighbours` (main.py lines 87–99), in source order:
top, right, bottom, left, then the four diagonals. -/
def neighbourIndices (r c : Int) : List (Int × Int) :=
  [(r - 1, c), (r, c + 1), (r + 1, c), (r, c - 1),
   (r - 1, c - 1), (r - 1, c + 1), (r + 1, c - 1), (r + 1, c + 1)]

/-- The body of `Life.get_alive_neighbours` (main.py lines 101–105): the
sum of the alive states of the eight neighbour coordinates that pass the
bounds guard `0 <= row < height and 0 <= col < width`, read from the
snapshot table `prevT`. Guarded coordinates are nonnegative, so the read is
`get2d` at `toNat` coordinates. -/
def countAlive (prevT : List (List Bool)) (hgt wid : Int)
    (row_idx column_idx : Int) : Nat :=
  (((neighbourIndices row_idx column_idx).filter (fun p =>
      decide (0 ≤ p.1 ∧ p.1 < hgt ∧ 0 ≤ p.2 ∧ p.2 < wid))).map
    (fun p => (get2d prevT p.1.toNat p.2.toNat).toNat)).sum

/-- `Life.get_alive_neighbours` (main.py lines 79–105): `countAlive` over
`prev_cells_table` with the instance's `height`/`width` bounds. -/
def Life.get_alive_neighbours (s : Life) (row_idx column_idx : Int) : Nat :=
  countAlive s.prev_cells_table s.height s.width row_idx column_idx

/-- One cell's new value under main.py's `apply_rules` branches (lines
117–129): a live cell is cleared when `n <= 1` or `n >= 4` and otherwise
left as is; a dead cell is set when `n == 3` and otherwise left as is. -/
def mainRule (is_alive : Bool) (n : Nat) : Bool :=
  if is_alive then
    if n ≤ 1 then false
    else if 4 ≤ n then false
    else is_alive
  else
    if n = 3 then true
    else is_alive

/-- The row-major positions `(row_idx, column_idx)` visited by the two
nested `enumerate` loops of `apply_rules` over a table: `enumerate` pairs
each row with its index, and each row is enumerated over its own length. -/
def rowMajor (t : List (List Bool)) : List (Nat × Nat) :=
  ((List.range t.length).map (fun r =>
    (List.range (t.getD r []).length).map (fun c => (r, c)))).flatten

/-- The loop body of `Life.apply_rules` (main.py lines 110–129), run over an
explicit worklist of positions: at each position the current (possibly
already partially updated) table supplies `is_alive`, the snapshot
`prevT` supplies the neighbour count, and the cell is written in place. -/
def applyRulesAux (prevT : List (List Bool)) (hgt wid : Int) :
    List (Nat × Nat) → List (List Bool) → List (List Bool)
  | [], t => t
  | (r, c) :: rest, t =>
    applyRulesAux prevT hgt wid rest
      (set2d t r c (mainRule (get2d t r c) (countAlive prevT hgt wid r c)))

/-- `Life.apply_rules` (main.py lines 110–129): iterates the row-major
positions of `cells_table`, mutating it in place; neighbour counts come
from `prev_cells_table` via `get_alive_neighbours`. -/
def Life.apply_rules (s : Life) : Life :=
  { s with cells_table :=
      (applyRulesAux s.prev_cells_table s.height s.width
        (rowMajor s.cells_table) s.cells_table) }

/-- `Life.randomize_table` (main.py lines 152–165): `vals` models the list
returned by `random.choices([True, False], k=width*height)`; the table is
rebuilt as the slices `vals[i:i+width]` for `i in range(0, width*height,
width)`, and `prev_cells_table` becomes a deep copy of it. -/
def Life.randomize_table (s : Life) (vals : List Bool) : Life :=
  let cells := (pyRange 0 (s.width * s.height) s.width).map
    (fun i => pySlice vals i (i + s.width))
  { s with cells_table := cells, prev_cells_table := cells }

/-- Canonical contribution of one neighbour probe at (Int) coordinates
`(r, c)` to a neighbour count over table `t` with bounds `h × w`:
1 when the coordinate is in bounds and the cell is alive, else 0. -/
def ind (t : List (List Bool)) (h w : Nat) (r c : Int) : Nat :=
  if 0 ≤ r ∧ r < (h : Int) ∧ 0 ≤ c ∧ c < (w : Int) ∧ get2d t r.toNat c.toNat = true
  then 1 else 0

/-- Canonical live-neighbour count of the cell at `(r, c)`: the sum of the
eight probes around it (listed in main.py's order: top, right, bottom,
left, then the diagonals). -/
def nCount (t : List (List Bool)) (h w : Nat) (r c : Int) : Nat :=
  ind t h w (r - 1) c + ind t h w r (c + 1) + ind t h w (r + 1) c +
  ind t h w r (c - 1) + ind t h w (r - 1) (c - 1) + ind t h w (r - 1) (c + 1) +
  ind t h w (r + 1) (c - 1) + ind t h w (r + 1) (c + 1)

/-- The value `get_neighbours` records for one probed coordinate inside an
existing row: `none` (Python `None`) when the column is out of zone,
otherwise the cell's alive state. -/
def probe (g : Grid) (y x : Int) : Option Bool :=
  if x < 0 ∨ x = g.x_size then none else some (get2d g.cells y.toNat x.toNat)

/-- The Game-of-Life rule as the spec states it: a live cell survives iff
its live-neighbour count is 2 or 3; a dead cell is born iff it is 3. -/
def lifeRule (alive : Bool) (n : Nat) : Bool :=
  if alive then decide (n = 2 ∨ n = 3) else decide (n = 3)

/-- An `h × w` table described by a cell predicate. -/
def mkTable (h w : Nat) (f : Nat → Nat → Bool) : List (List Bool) :=
  (List.range h).map (fun r => (List.range w).map (f r))

/-- Python truthiness of the optional ints `new_width`/`new_height`:
`None` and `0` are falsy, any other int is truthy. -/
def truthy (o : Option Int) : Bool :=
  match o with
  | none => false
  | some n => decide (n ≠ 0)

/-- The pending-resize block at the top of `Life.run`'s loop (main.py lines
171–182): `if self.new_width and self.new_height:` — when both are truthy,
install the new dimensions, re-randomize the table (drawing `vals` from the
random source), clear the request, and reset `start_time` (to the fresh
sample `t`) and `frame_count`; otherwise the state is untouched. -/
def Life.apply_pending_resize (s : Life) (vals : List Bool) (t : Int) : Life :=
  if truthy s.new_width && truthy s.new_height then
    let s1 := { s with width := s.new_width.getD 0, height := s.new_height.getD 0 }
    let s2 := s1.randomize_table vals
    { s2 with new_width := none, new_height := none,
              start_time := t, frame_count := 0 }
  else s

/-! ## Concrete instances used to exercise the theorems -/

/-- A 5×5 table whose only live cells are the horizontal blinker
(2,1)–(2,3). -/
def bl5 : List (List Bool) :=
  [[false, false, false, false, false],
   [false, false, false, false, false],
   [false, true, true, true, false],
   [false, false, false, false, false],
   [false, false, false, false, false]]

/-- A 5×5 table with the same blinker moved to the top row:
live cells (0,1)–(0,3). -/
def blTop5 : List (List Bool) :=
  [[false, true, true, true, false],
   [false, false, false, false, false],
   [false, false, false, false, false],
   [false, false, false, false, false],
   [false, false, false, false, false]]

/-- A `Life` state carrying `bl5` consistently (snapshot equal to the live
table, dimensions matching). -/
def lf5 : Life :=
  { width := 5
    height := 5
    clear_screen := false
    cells_table := bl5
    prev_cells_table := bl5
    start_time := 0
    frame_count := 0
    should_regenerate_screen := false
    new_width := none
    new_height := none }

/-- `lf5` with different reporting metadata (frame counter and start
time). -/
def lf5meta : Life :=
  { lf5 with frame_count := 7, start_time := 123 }

/-- `lf5` with a pending resize request to `-1 × 5`. -/
def lf5negResize : Life :=
  { lf5 with new_width := some (-1), new_height := some 5 }

/-- `lf5` with a pending resize request to `0 × 5`. -/
def lf5zeroResize : Life :=
  { lf5 with new_width := some 0, new_height := some 5 }

/-- `lf5` with a pending resize request to `3 × 2`. -/
def lf5resize32 : Life :=
  { lf5 with new_width := some 3, new_height := some 2 }

/-- Six draws from the random source, for a 3×2 resize. -/
def vals6 : List Bool := [true, false, true, false, true, false]

/-- A 2×2 `Grid` whose only live cell is at row 1, column 1. -/
def demo2 : Grid :=
  { x_size := 2, y_size := 2, cells := [[false, false], [false, true]] }

/-! ## Basic lemmas about tables -/

theorem Rect.rowD {t : List (List Bool)} {h w : Nat} (ht : Rect t h w)
    {r : Nat} (hr : r < h) : (t.getD r []).length = w := by
  obtain ⟨hlen, hrows⟩ := ht
  have hr' : r < t.length := by omega
  rw [List.getD_eq_getElem _ _ hr']
  exact hrows _ (List.getElem_mem hr')

theorem get2d_mkTable {h w : Nat} (f : Nat → Nat → Bool) {r c : Nat}
    (hr : r < h) (hc : c < w) : get2d (mkTable h w f) r c = f r c := by
  have hr' : r < (mkTable h w f).length := by simp [mkTable, hr]
  have hrow : (mkTable h w f).getD r [] = (List.range w).map (f r) := by
    rw [List.getD_eq_getElem _ _ hr']
    simp [mkTable]
  unfold get2d
  rw [hrow]
  have hc' : c < ((List.range w).map (f r)).length := by simp [hc]
  rw [List.getD_eq_getElem _ _ hc']
  simp

theorem Rect.mkTable {h w : Nat} (f : Nat → Nat → Bool) :
    Rect (Conway.mkTable h w f) h w := by
  constructor
  · simp [Conway.mkTable]
  · intro row hrow
    simp only [Conway.mkTable, List.mem_map] at hrow
    obtain ⟨r, _, rfl⟩ := hrow
    simp

theorem rect_ext {t₁ t₂ : List (List Bool)} {h w : Nat}
    (h₁ : Rect t₁ h w) (h₂ : Rect t₂ h w)
    (hcell : ∀ r < h, ∀ c < w, get2d t₁ r c = get2d t₂ r c) : t₁ = t₂ := by
  obtain ⟨hl₁, hrow₁⟩ := h₁
  obtain ⟨hl₂, hrow₂⟩ := h₂
  apply List.ext_getElem (by omega)
  intro r hra hrb
  have hrh : r < h := by omega
  have e₁ : t₁[r].length = w := hrow₁ _ (List.getElem_mem hra)
  have e₂ : t₂[r].length = w := hrow₂ _ (List.getElem_mem hrb)
  apply List.ext_getElem (by omega)
  intro c hca hcb
  have hcw : c < w := by omega
  have hc := hcell r hrh c hcw
  unfold get2d at hc
  rwa [List.getD_eq_getElem _ _ hra, List.getD_eq_getElem _ _ hrb,
    List.getD_eq_getElem _ _ hca, List.getD_eq_getElem _ _ hcb] at hc

/-! ## Neighbour-count lemmas -/

theorem sum_map_filter {α : Type} (p : α → Bool) (f : α → Nat) (l : List α) :
    ((l.filter p).map f).sum = (l.map (fun x => if p x then f x else 0)).sum := by
  induction l with
  | nil => rfl
  | cons a l ih =>
    by_cases hp : p a
    · simp [List.filter_cons, hp, ih]
    · simp [List.filter_cons, hp, ih]

theorem ind_eq (t : List (List Bool)) (h w : Nat) (a b : Int) :
    (if 0 ≤ a ∧ a < (h : Int) ∧ 0 ≤ b ∧ b < (w : Int)
     then (get2d t a.toNat b.toNat).toNat else 0) = ind t h w a b := by
  unfold ind
  by_cases hb : 0 ≤ a ∧ a < (h : Int) ∧ 0 ≤ b ∧ b < (w : Int)
  · rcases hb with ⟨h1, h2, h3, h4⟩
    cases hg : get2d t a.toNat b.toNat <;>
      simp [h1, h2, h3, h4, hg]
  · rw [if_neg hb, if_neg]
    intro hc
    exact hb ⟨hc.1, hc.2.1, hc.2.2.1, hc.2.2.2.1⟩

theorem optSum_append (l₁ l₂ : List (Option Bool)) :
    optSum (l₁ ++ l₂) = optSum l₁ + optSum l₂ := by
  simp [optSum]

theorem ind_row_oob {t : List (List Bool)} {h w : Nat} {a : Int}
    (ha : a < 0 ∨ (h : Int) ≤ a) (b : Int) : ind t h w a b = 0 := by
  unfold ind
  rw [if_neg]
  rintro ⟨h1, h2, -⟩
  omega

theorem probe_contrib (g : Grid) (h w : Nat) (hx : g.x_size = (w : Int))
    {a x : Int} (h0 : 0 ≤ a) (h1 : a < (h : Int)) (hxle : x ≤ (w : Int)) :
    ((probe g a x).getD false).toNat = ind g.cells h w a x := by
  unfold probe ind
  by_cases hc : x < 0 ∨ x = g.x_size
  · rw [if_pos hc, if_neg]
    · rfl
    · rintro ⟨-, -, h3, h4, -⟩
      rw [hx] at hc
      omega
  · rw [if_neg hc]
    rw [hx] at hc
    push_neg at hc
    have hx0 : 0 ≤ x := by omega
    have hxw : x < (w : Int) := lt_of_le_of_ne hxle hc.2
    cases halive : get2d g.cells a.toNat x.toNat
    · rw [if_neg]
      · rfl
      · rintro ⟨-, -, -, -, h5⟩
        exact Bool.false_ne_true h5
    · rw [if_pos ⟨h0, h1, hx0, hxw, rfl⟩]
      rfl

theorem optSum_filterMap3 (e : Int → Option (Option Bool)) (a b c : Int) :
    optSum (List.filterMap e [a, b, c]) =
    entryVal (e a) + entryVal (e b) + entryVal (e c) := by
  rcases h1 : e a with - | v1 <;> rcases h2 : e b with - | v2 <;>
    rcases h3 : e c with - | v3 <;>
      simp [optSum, List.filterMap_cons, h1, h2, h3, entryVal] <;> omega

theorem entry_noncenter (g : Grid) {X Y a : Int} (hne : a ≠ Y) (x : Int) :
    neighbourEntry g X Y a x = some (probe g a x) := by
  unfold neighbourEntry probe
  rw [if_neg (fun hc => hne hc.1)]
  by_cases hcx : x < 0 ∨ x = g.x_size
  · rw [if_pos hcx, if_pos hcx]
  · rw [if_neg hcx, if_neg hcx]

theorem entry_center (g : Grid) {X Y x : Int} (hne : x ≠ X) :
    neighbourEntry g X Y Y x = some (probe g Y x) := by
  unfold neighbourEntry probe
  rw [if_neg (fun hc => hne hc.2)]
  by_cases hcx : x < 0 ∨ x = g.x_size
  · rw [if_pos hcx, if_pos hcx]
  · rw [if_neg hcx, if_neg hcx]

theorem entry_skip (g : Grid) (X Y : Int) :
    neighbourEntry g X Y Y X = none :=
  if_pos ⟨rfl, rfl⟩

theorem row_noncenter (g : Grid) (h w : Nat) (hx : g.x_size = (w : Int))
    (hy : g.y_size = (h : Int)) {X Y a : Int} (hne : a ≠ Y)
    (hley : a ≤ (h : Int)) (hXw : X < (w : Int)) :
    optSum (neighbourRow g X Y a) =
    ind g.cells h w a (X - 1) + ind g.cells h w a X + ind g.cells h w a (X + 1) := by
  unfold neighbourRow
  by_cases hrow : a < 0 ∨ a = g.y_size
  · rw [if_pos hrow]
    rw [hy] at hrow
    have hz : a < 0 ∨ (h : Int) ≤ a := by omega
    rw [ind_row_oob hz, ind_row_oob hz, ind_row_oob hz]
    rfl
  · rw [if_neg hrow]
    rw [hy] at hrow
    push_neg at hrow
    have h0 : 0 ≤ a := by omega
    have h1 : a < (h : Int) := lt_of_le_of_ne hley hrow.2
    show optSum (List.filterMap (neighbourEntry g X Y a) [X - 1, X, X + 1]) = _
    rw [optSum_filterMap3]
    rw [entry_noncenter g hne, entry_noncenter g hne, entry_noncenter g hne]
    show ((probe g a (X - 1)).getD false).toNat + ((probe g a X).getD false).toNat
      + ((probe g a (X + 1)).getD false).toNat = _
    rw [probe_contrib g h w hx h0 h1 (by omega),
      probe_contrib g h w hx h0 h1 (by omega),
      probe_contrib g h w hx h0 h1 (by omega)]

theorem row_center (g : Grid) (h w : Nat) (hx : g.x_size = (w : Int))
    (hy : g.y_size = (h : Int)) {X Y : Int} (h0 : 0 ≤ Y) (h1 : Y < (h : Int))
    (hXw : X < (w : Int)) :
    optSum (neighbourRow g X Y Y) =
    ind g.cells h w Y (X - 1) + ind g.cells h w Y (X + 1) := by
  unfold neighbourRow
  rw [if_neg (by rw [hy]; omega)]
  show optSum (List.filterMap (neighbourEntry g X Y Y) [X - 1, X, X + 1]) = _
  rw [optSum_filterMap3]
  rw [entry_center g (by omega), entry_skip, entry_center g (by omega)]
  show ((probe g Y (X - 1)).getD false).toNat + 0
    + ((probe g Y (X + 1)).getD false).toNat = _
  rw [probe_contrib g h w hx h0 h1 (by omega),
    probe_contrib g h w hx h0 h1 (by omega)]
  omega

/-- game.py's neighbour tuple sums to the canonical neighbour count, for an
in-bounds centre cell. -/
theorem optSum_get_neighbours (g : Grid) (h w : Nat)
    (hx : g.x_size = (w : Int)) (hy : g.y_size = (h : Int)) {X Y : Int}
    (hXw : X < (w : Int)) (hY0 : 0 ≤ Y) (hYh : Y < (h : Int)) :
    optSum (g.get_neighbours X Y) = nCount g.cells h w Y X := by
  unfold Grid.get_neighbours
  simp only [range3, List.map_cons, List.map_nil, List.flatten_cons,
    List.flatten_nil, List.append_nil]
  rw [optSum_append, optSum_append]
  rw [row_noncenter g h w hx hy (by omega) (by omega) hXw]
  rw [row_center g h w hx hy hY0 hYh hXw]
  rw [row_noncenter g h w hx hy (by omega) (by omega) hXw]
  unfold nCount
  omega

/-- main.py's bounds-guarded neighbour summation computes the canonical
neighbour count. -/
theorem countAlive_eq (prevT : List (List Bool)) (h w : Nat) (r c : Int) :
    countAlive prevT (h : Int) (w : Int) r c = nCount prevT h w r c := by
  unfold countAlive nCount
  rw [sum_map_filter]
  simp only [neighbourIndices, List.map_cons, List.map_nil, List.sum_cons,
    List.sum_nil, decide_eq_true_eq]
  simp only [ind_eq]
  omega

/-- main.py's `get_alive_neighbours` computes the canonical neighbour count
over `prev_cells_table`. -/
theorem get_alive_neighbours_eq (s : Life) (h w : Nat)
    (hh : s.height = (h : Int)) (hw : s.width = (w : Int)) (r c : Int) :
    s.get_alive_neighbours r c = nCount s.prev_cells_table h w r c := by
  unfold Life.get_alive_neighbours
  rw [hh, hw, countAlive_eq]

/-! ## The in-place pass of `apply_rules` -/

theorem getD_eq_getElem?_getD' {α : Type} (l : List α) (n : Nat) (d : α) :
    l.getD n d = l[n]?.getD d := by
  simp [List.getD]

theorem get2d_set2d_ne {t : List (List Bool)} {r c : Nat} {b : Bool}
    {r' c' : Nat} (hne : r ≠ r' ∨ c ≠ c') :
    get2d (set2d t r c b) r' c' = get2d t r' c' := by
  unfold get2d set2d
  rcases eq_or_ne r r' with rfl | hrr
  · have hcc : c ≠ c' := hne.resolve_left (fun hc => hc rfl)
    rw [getD_eq_getElem?_getD' (t.set r _) r, List.getElem?_set, if_pos rfl]
    by_cases hr : r < t.length
    · rw [if_pos hr, Option.getD_some]
      rw [getD_eq_getElem?_getD' ((t.getD r []).set c b) c',
        List.getElem?_set_ne hcc, ← getD_eq_getElem?_getD']
    · rw [if_neg hr]
      rw [List.getD_eq_default t [] (by omega)]
      rfl
  · rw [getD_eq_getElem?_getD' (t.set r _) r', List.getElem?_set_ne hrr,
      ← getD_eq_getElem?_getD']

theorem get2d_set2d_self {t : List (List Bool)} {r c : Nat} {b : Bool}
    (hr : r < t.length) (hc : c < (t.getD r []).length) :
    get2d (set2d t r c b) r c = b := by
  unfold get2d set2d
  rw [getD_eq_getElem?_getD' (t.set r _) r, List.getElem?_set_self (by simpa using hr)]
  simp only [Option.getD_some]
  rw [getD_eq_getElem?_getD' _ c, List.getElem?_set_self (by simpa using hc)]
  rfl

theorem rect_set2d {t : List (List Bool)} {h w : Nat} (ht : Rect t h w)
    (r c : Nat) (b : Bool) : Rect (set2d t r c b) h w := by
  by_cases hr : r < t.length
  · refine ⟨by simp [set2d, ht.1], ?_⟩
    intro row hrow
    rcases List.mem_or_eq_of_mem_set hrow with hmem | rfl
    · exact ht.2 _ hmem
    · rw [List.length_set]
      exact ht.rowD (by rw [← ht.1]; exact hr)
  · have hid : set2d t r c b = t := by
      unfold set2d
      exact List.set_eq_of_length_le (by omega)
    rw [hid]
    exact ht

theorem rect_applyRulesAux {prevT : List (List Bool)} {H W : Int}
    {ps : List (Nat × Nat)} {t : List (List Bool)} {h w : Nat}
    (ht : Rect t h w) : Rect (applyRulesAux prevT H W ps t) h w := by
  induction ps generalizing t with
  | nil => exact ht
  | cons p rest ih =>
    obtain ⟨r, c⟩ := p
    exact ih (rect_set2d ht r c _)

theorem get2d_applyRulesAux_not_mem {prevT : List (List Bool)} {H W : Int}
    {ps : List (Nat × Nat)} {t : List (List Bool)} {q : Nat × Nat}
    (hq : q ∉ ps) :
    get2d (applyRulesAux prevT H W ps t) q.1 q.2 = get2d t q.1 q.2 := by
  induction ps generalizing t with
  | nil => rfl
  | cons p rest ih =>
    obtain ⟨r, c⟩ := p
    rw [applyRulesAux]
    rw [ih (fun hmem => hq (List.mem_cons_of_mem _ hmem))]
    apply get2d_set2d_ne
    by_contra hcon
    push_neg at hcon
    exact hq (by simp [hcon.1, hcon.2, Prod.ext_iff])

theorem get2d_applyRulesAux_mem {prevT : List (List Bool)} {H W : Int}
    {h w : Nat} {ps : List (Nat × Nat)} {t : List (List Bool)}
    (ht : Rect t h w) (hnd : ps.Nodup) {q : Nat × Nat} (hq : q ∈ ps)
    (hq1 : q.1 < h) (hq2 : q.2 < w) :
    get2d (applyRulesAux prevT H W ps t) q.1 q.2 =
      mainRule (get2d t q.1 q.2) (countAlive prevT H W q.1 q.2) := by
  induction ps generalizing t with
  | nil => cases hq
  | cons p rest ih =>
    obtain ⟨r, c⟩ := p
    rw [applyRulesAux]
    have hhead : (r, c) ∉ rest := (List.nodup_cons.mp hnd).1
    rcases List.mem_cons.mp hq with rfl | hmem
    · rw [get2d_applyRulesAux_not_mem hhead]
      exact get2d_set2d_self (by rw [ht.1]; exact hq1)
        (by rw [ht.rowD hq1]; exact hq2)
    · have hqp : q ≠ (r, c) := fun hcon => hhead (hcon ▸ hmem)
      rw [ih (rect_set2d ht r c _) (List.nodup_cons.mp hnd).2 hmem]
      rw [get2d_set2d_ne (by
        by_contra hcon
        push_neg at hcon
        exact hqp (Prod.ext_iff.mpr ⟨hcon.1.symm, hcon.2.symm⟩))]

theorem rowMajor_eq_product {t : List (List Bool)} {h w : Nat}
    (ht : Rect t h w) : rowMajor t = (List.range h) ×ˢ (List.range w) := by
  unfold rowMajor
  rw [ht.1]
  have hcong : ∀ r ∈ List.range h,
      (List.range (t.getD r []).length).map (fun c => (r, c)) =
      (List.range w).map (fun c => (r, c)) := by
    intro r hr
    rw [ht.rowD (List.mem_range.mp hr)]
  rw [List.map_congr_left hcong]
  simp [SProd.sprod, List.product, List.flatMap]

/-- Pointwise description of main.py's in-place pass: with the snapshot
equal to the live table at the start of the pass (as `Life.run` maintains),
every cell of the output is the rule applied to the input cell and its
neighbour count over the input. -/
theorem apply_rules_get {s : Life} {h w : Nat} (ht : Rect s.cells_table h w)
    (hprev : s.prev_cells_table = s.cells_table)
    (hh : s.height = (h : Int)) (hw : s.width = (w : Int))
    {r c : Nat} (hr : r < h) (hc : c < w) :
    get2d (s.apply_rules).cells_table r c =
      mainRule (get2d s.cells_table r c)
        (nCount s.cells_table h w (r : Int) (c : Int)) := by
  show get2d (applyRulesAux s.prev_cells_table s.height s.width
    (rowMajor s.cells_table) s.cells_table) r c = _
  have hmem : (r, c) ∈ rowMajor s.cells_table := by
    rw [rowMajor_eq_product ht]
    exact List.mem_product.mpr ⟨List.mem_range.mpr hr, List.mem_range.mpr hc⟩
  have hnd : (rowMajor s.cells_table).Nodup := by
    rw [rowMajor_eq_product ht]
    exact (List.nodup_range h).product (List.nodup_range w)
  rw [get2d_applyRulesAux_mem ht hnd hmem hr hc]
  rw [hprev, hh, hw, countAlive_eq]

theorem rect_apply_rules {s : Life} {h w : Nat} (ht : Rect s.cells_table h w) :
    Rect (s.apply_rules).cells_table h w :=
  rect_applyRulesAux ht

/-! ## Pointwise description of `update_grid_full` -/

theorem update_grid_full_cells (g : Grid) :
    (g.update_grid_full).cells = mkTable g.y_size.toNat g.x_size.toNat
      (fun y x => gameRule (get2d g.cells y x)
        (optSum (g.get_neighbours (x : Int) (y : Int)))) := rfl

theorem rect_update_grid_full (g : Grid) (h w : Nat)
    (hx : g.x_size = (w : Int)) (hy : g.y_size = (h : Int)) :
    Rect (g.update_grid_full).cells h w := by
  rw [update_grid_full_cells, hx, hy]
  simp only [Int.toNat_natCast]
  exact Rect.mkTable _

theorem update_grid_full_get (g : Grid) (h w : Nat)
    (hx : g.x_size = (w : Int)) (hy : g.y_size = (h : Int))
    {r c : Nat} (hr : r < h) (hc : c < w) :
    get2d (g.update_grid_full).cells r c =
      gameRule (get2d g.cells r c) (nCount g.cells h w (r : Int) (c : Int)) := by
  rw [update_grid_full_cells, hx, hy]
  simp only [Int.toNat_natCast]
  rw [get2d_mkTable _ hr hc]
  rw [optSum_get_neighbours g h w hx hy (by exact_mod_cast hc)
    (Int.natCast_nonneg r) (by exact_mod_cast hr)]

/-! ## The two rule formulations agree -/

theorem mainRule_eq_gameRule (a : Bool) (n : Nat) :
    mainRule a n = gameRule a n := by
  cases a <;> simp only [mainRule, gameRule] <;> split_ifs <;>
    simp_all <;> omega

theorem gameRule_eq_lifeRule (a : Bool) (n : Nat) :
    gameRule a n = lifeRule a n := by
  cases a
  · rfl
  · show decide (2 ≤ n ∧ n < 4) = decide (n = 2 ∨ n = 3)
    rw [decide_eq_decide]
    omega

/-! ## Python subscript lemmas -/

theorem pyGet_nonneg {α : Type} (l : List α) {i : Int} (h0 : 0 ≤ i)
    (hi : i < (l.length : Int)) : pyGet l i = l[i.toNat]? := by
  unfold pyGet pyIndex
  rw [if_pos h0, if_pos hi]
  simp [List.get?_eq_getElem?]

theorem pyGet_ge {α : Type} (l : List α) {i : Int}
    (hi : (l.length : Int) ≤ i) : pyGet l i = none := by
  unfold pyGet pyIndex
  rw [if_pos (by omega), if_neg (by omega)]
  rfl

theorem pyGet_lt_neg {α : Type} (l : List α) {i : Int}
    (hi : i < -(l.length : Int)) : pyGet l i = none := by
  unfold pyGet pyIndex
  rw [if_neg (by omega), if_neg (by omega)]
  rfl

theorem pyGet_neg {α : Type} (l : List α) {i : Int} (h0 : i < 0)
    (hi : -(l.length : Int) ≤ i) : pyGet l i = pyGet l (i + l.length) := by
  unfold pyGet pyIndex
  rw [if_neg (by omega), if_pos (by omega), if_pos (by omega),
    if_pos (by omega), Int.add_comm]

/-! ## Rule-shape lemmas -/

theorem gameRule_true_iff (a : Bool) (n : Nat) :
    gameRule a n = true ↔
      ((a = true ∧ (n = 2 ∨ n = 3)) ∨ (a = false ∧ n = 3)) := by
  cases a <;> simp [gameRule] <;> omega

/-! ## C1 -/

/-- C1: for every rectangular grid and every in-bounds cell `(r, c)`, the
cell produced by one step — game.py's `update_grid_full`, and equally
main.py's `apply_rules` run from a consistent `Life` state — is alive iff
(the cell was alive and its live-neighbour count `n` is 2 or 3) or (the
cell was dead and `n = 3`); otherwise it is dead. -/
theorem step_follows_life_rule {t : List (List Bool)} {h w : Nat}
    (ht : Rect t h w) {r c : Nat} (hr : r < h) (hc : c < w) :
    (get2d (Grid.update_grid_full ⟨(w : Int), (h : Int), t⟩).cells r c = true ↔
      ((get2d t r c = true ∧
          (nCount t h w r c = 2 ∨ nCount t h w r c = 3)) ∨
       (get2d t r c = false ∧ nCount t h w r c = 3)))
    ∧ ∀ s : Life, s.cells_table = t → s.prev_cells_table = t →
        s.height = (h : Int) → s.width = (w : Int) →
        (get2d (s.apply_rules).cells_table r c = true ↔
          ((get2d t r c = true ∧
              (nCount t h w r c = 2 ∨ nCount t h w r c = 3)) ∨
           (get2d t r c = false ∧ nCount t h w r c = 3))) := by
  constructor
  · rw [update_grid_full_get _ h w rfl rfl hr hc]
    exact gameRule_true_iff _ _
  · intro s h1 h2 h3 h4
    rw [apply_rules_get (by rw [h1]; exact ht) (h2.trans h1.symm) h3 h4 hr hc]
    rw [h1, mainRule_eq_gameRule]
    exact gameRule_true_iff _ _

/-- Witness for C1 at the 5×5 blinker, cell (2,2). -/
theorem step_follows_life_rule_witness :
    (get2d (Grid.update_grid_full ⟨(5 : Int), (5 : Int), bl5⟩).cells 2 2 = true ↔
      ((get2d bl5 2 2 = true ∧
          (nCount bl5 5 5 2 2 = 2 ∨ nCount bl5 5 5 2 2 = 3)) ∨
       (get2d bl5 2 2 = false ∧ nCount bl5 5 5 2 2 = 3)))
    ∧ (get2d (lf5.apply_rules).cells_table 2 2 = true ↔
      ((get2d bl5 2 2 = true ∧
          (nCount bl5 5 5 2 2 = 2 ∨ nCount bl5 5 5 2 2 = 3)) ∨
       (get2d bl5 2 2 = false ∧ nCount bl5 5 5 2 2 = 3))) :=
  ⟨(step_follows_life_rule (by decide) (by decide) (by decide)).1,
   (step_follows_life_rule (t := bl5) (by decide) (by decide) (by decide)).2
     lf5 rfl rfl rfl rfl⟩

/-! ## C3 -/

theorem apply_rules_eq_pure {s : Life} {h w : Nat}
    (ht : Rect s.cells_table h w)
    (hprev : s.prev_cells_table = s.cells_table)
    (hh : s.height = (h : Int)) (hw : s.width = (w : Int)) :
    (s.apply_rules).cells_table =
      (Grid.update_grid_full ⟨(w : Int), (h : Int), s.cells_table⟩).cells := by
  apply rect_ext (rect_apply_rules ht) (rect_update_grid_full _ h w rfl rfl)
  intro r hr c hc
  rw [apply_rules_get ht hprev hh hw hr hc,
    update_grid_full_get _ h w rfl rfl hr hc, mainRule_eq_gameRule]

/-- C3: main.py's in-place `apply_rules`, started from a state whose
snapshot `prev_cells_table` equals `cells_table` (as `Life.run` maintains
before every pass), produces exactly the table that game.py's pure
double-buffered `update_grid_full` computes from the same input — the
result does not depend on the in-place visiting order. -/
theorem apply_rules_eq_update_grid_full {s : Life} {h w : Nat}
    (ht : Rect s.cells_table h w)
    (hprev : s.prev_cells_table = s.cells_table)
    (hh : s.height = (h : Int)) (hw : s.width = (w : Int)) :
    (s.apply_rules).cells_table =
      (Grid.update_grid_full ⟨(w : Int), (h : Int), s.cells_table⟩).cells :=
  apply_rules_eq_pure ht hprev hh hw

/-- Witness for C3 at the 5×5 blinker state. -/
theorem apply_rules_eq_update_grid_full_witness :
    (lf5.apply_rules).cells_table =
      (Grid.update_grid_full ⟨(5 : Int), (5 : Int), bl5⟩).cells :=
  apply_rules_eq_update_grid_full (h := 5) (w := 5) (by decide) rfl rfl rfl

/-! ## C10 -/

/-- C10: the frame counter and start time never influence rule evaluation:
two simulator states with identical cell buffers, snapshots and dimensions
produce identical next-generation tables under `apply_rules`, whatever
their `frame_count` and `start_time` (and remaining metadata) are. -/
theorem metadata_noninterference (s₁ s₂ : Life)
    (hc : s₁.cells_table = s₂.cells_table)
    (hp : s₁.prev_cells_table = s₂.prev_cells_table)
    (hh : s₁.height = s₂.height) (hw : s₁.width = s₂.width) :
    (s₁.apply_rules).cells_table = (s₂.apply_rules).cells_table := by
  show applyRulesAux s₁.prev_cells_table s₁.height s₁.width
      (rowMajor s₁.cells_table) s₁.cells_table = _
  rw [hc, hp, hh, hw]
  rfl

/-- Witness for C10: `lf5` and `lf5meta` differ exactly in `frame_count`
and `start_time`. -/
theorem metadata_noninterference_witness :
    (lf5.apply_rules).cells_table = (lf5meta.apply_rules).cells_table :=
  metadata_noninterference lf5 lf5meta rfl rfl rfl rfl

/-! ## C8 -/

theorem get2d_replicate_false (h w : Nat) (r c : Nat) :
    get2d (List.replicate h (List.replicate w false)) r c = false := by
  unfold get2d
  rw [getD_eq_getElem?_getD' _ r]
  by_cases hr : r < h
  · rw [List.getElem?_replicate_of_lt hr, Option.getD_some]
    rw [getD_eq_getElem?_getD' _ c]
    by_cases hc : c < w
    · rw [List.getElem?_replicate_of_lt hc]
      rfl
    · rw [List.getElem?_eq_none (by simpa using Nat.le_of_not_lt hc)]
      rfl
  · rw [List.getElem?_eq_none (by simpa using Nat.le_of_not_lt hr)]
    rfl

theorem rect_replicate_false (h w : Nat) :
    Rect (List.replicate h (List.replicate w false)) h w := by
  refine ⟨List.length_replicate _ _, ?_⟩
  intro row hrow
  rw [List.eq_of_mem_replicate hrow]
  exact List.length_replicate _ _

theorem nCount_replicate_false (h w : Nat) (r c : Int) :
    nCount (List.replicate h (List.replicate w false)) h w r c = 0 := by
  unfold nCount
  have hz : ∀ a b : Int,
      ind (List.replicate h (List.replicate w false)) h w a b = 0 := by
    intro a b
    unfold ind
    rw [if_neg]
    rintro ⟨-, -, -, -, h5⟩
    rw [get2d_replicate_false] at h5
    exact Bool.false_ne_true h5
  rw [hz, hz, hz, hz, hz, hz, hz, hz]

/-- C8: one step applied to the all-dead grid of any size yields the
all-dead grid of the same size — for game.py's `update_grid_full` and for
main.py's `apply_rules` on a freshly constructed `Life` (whose two buffers
are all dead). -/
theorem step_all_dead (w h : Nat) (t : Int) :
    (Grid.update_grid_full
        ⟨(w : Int), (h : Int), List.replicate h (List.replicate w false)⟩).cells =
      List.replicate h (List.replicate w false)
    ∧ ((Life.init t (w : Int) (h : Int) false).apply_rules).cells_table =
      List.replicate h (List.replicate w false) := by
  have hrect := rect_replicate_false h w
  have hgame : (Grid.update_grid_full
      ⟨(w : Int), (h : Int), List.replicate h (List.replicate w false)⟩).cells =
      List.replicate h (List.replicate w false) := by
    apply rect_ext (rect_update_grid_full _ h w rfl rfl) hrect
    intro r hr c hc
    rw [update_grid_full_get _ h w rfl rfl hr hc]
    rw [get2d_replicate_false, nCount_replicate_false]
    rfl
  refine ⟨hgame, ?_⟩
  have hcell : (Life.init t (w : Int) (h : Int) false).cells_table =
      List.replicate h (List.replicate w false) := by
    show List.replicate ((h : Int)).toNat (List.replicate ((w : Int)).toNat false) = _
    rw [Int.toNat_natCast, Int.toNat_natCast]
  rw [apply_rules_eq_pure (h := h) (w := w) (by rw [hcell]; exact hrect) rfl rfl rfl]
  rw [hcell]
  exact hgame

/-! ## C4 -/

/-- C4 counterexample: construction with non-positive dimensions does not
fail — both constructors return a value (a degenerate grid with no rows),
so no `InvalidDimension` error exists on this path. -/
theorem construction_nonpositive_succeeds :
    (Life.initE 0 0 0 false).isSome = true ∧ (Grid.initE 0 0).isSome = true ∧
    (Life.init 0 0 0 false).cells_table = [] ∧ (Grid.init 0 0).cells = [] :=
  ⟨rfl, rfl, rfl, rfl⟩

/-- C4 amended: construction never fails; with width ≥ 1 and height ≥ 1 it
allocates a height×width matrix in which every cell is dead (for both
`Life.__init__` and `Grid.__init__`); non-positive dimensions silently
yield a degenerate matrix instead of an `InvalidDimension` failure. -/
theorem construction_allocates_dead_grid (t w h : Int)
    (hw : 1 ≤ w) (hh : 1 ≤ h) :
    Life.initE t w h false = some (Life.init t w h false)
    ∧ (Life.init t w h false).cells_table =
        List.replicate h.toNat (List.replicate w.toNat false)
    ∧ Rect (Life.init t w h false).cells_table h.toNat w.toNat
    ∧ (∀ r c : Nat, get2d (Life.init t w h false).cells_table r c = false)
    ∧ Grid.initE w h = some (Grid.init w h)
    ∧ (Grid.init w h).cells =
        List.replicate h.toNat (List.replicate w.toNat false)
    ∧ Rect (Grid.init w h).cells h.toNat w.toNat
    ∧ (∀ r c : Nat, get2d (Grid.init w h).cells r c = false) := by
  refine ⟨rfl, rfl, rect_replicate_false _ _, ?_, rfl, rfl,
    rect_replicate_false _ _, ?_⟩
  · intro r c
    exact get2d_replicate_false _ _ r c
  · intro r c
    exact get2d_replicate_false _ _ r c

/-- Witness for C4 (amended) at width 3, height 2. -/
theorem construction_allocates_dead_grid_witness :
    (Life.init 0 3 2 false).cells_table =
      List.replicate (2 : Int).toNat (List.replicate (3 : Int).toNat false)
    ∧ get2d (Grid.init 3 2).cells 1 2 = false :=
  ⟨(construction_allocates_dead_grid 0 3 2 (by decide) (by decide)).2.1,
   (construction_allocates_dead_grid 0 3 2 (by decide) (by decide)).2.2.2.2.2.2.2 1 2⟩

/-! ## C6 -/

/-- C6: the run loop guards a pending resize only by Python truthiness
(`if self.new_width and self.new_height:`). A request of `0` is indeed
ignored, but a request with a *negative* dimension is truthy and is
applied: the simulator adopts `width = -1` and rebuilds the table around
it (five empty rows here), contradicting the claim that any request with
width or height ≤ 0 leaves the grid's previous valid size intact. -/
theorem negative_resize_applied :
    (lf5negResize.apply_pending_resize [] 99).width = -1
    ∧ (lf5negResize.apply_pending_resize [] 99).height = 5
    ∧ (lf5negResize.apply_pending_resize [] 99).cells_table = [[], [], [], [], []]
    ∧ lf5zeroResize.apply_pending_resize [] 99 = lf5zeroResize := by
  refine ⟨?_, ?_, ?_, ?_⟩ <;> rfl

/-! ## C7 -/

theorem pyRange_chunks (W H : Nat) (hW : 1 ≤ W) :
    pyRange 0 ((W : Int) * (H : Int)) (W : Int) =
      (List.range H).map (fun k => ((k * W : Nat) : Int)) := by
  unfold pyRange
  rw [if_pos (by exact_mod_cast hW)]
  have hcount : ((W : Int) * (H : Int) - 0 + (W : Int) - 1) / (W : Int) = (H : Int) := by
    have he : (W : Int) * (H : Int) - 0 + (W : Int) - 1 =
        ((W : Int) - 1) + (H : Int) * (W : Int) := by ring
    rw [he, Int.add_mul_ediv_right _ _ (by omega),
      Int.ediv_eq_zero_of_lt (by omega) (by omega)]
    omega
  rw [hcount, Int.toNat_natCast]
  apply List.map_congr_left
  intro k _
  push_cast
  ring

theorem pySlice_chunk (vals : List Bool) (a b : Nat) (hab : a ≤ b)
    (hb : b ≤ vals.length) :
    pySlice vals (a : Int) (b : Int) = (vals.drop a).take (b - a) := by
  unfold pySlice sliceIdx
  rw [if_pos (by omega), if_pos (by omega), Int.toNat_natCast, Int.toNat_natCast]
  rw [Nat.min_eq_left hb, Nat.min_eq_left (by omega)]
  rw [List.drop_take]

/-- C7: applying a pending resize with valid dimensions (`new_width ≥ 1`,
`new_height ≥ 1`) installs the new dimensions, replaces the table with a
freshly randomized `new_height × new_width` matrix built solely from the
fresh random draws `vals` (no cell of the old grid survives — the result
does not mention the old table), re-snapshots it, clears the request, and
resets the frame counter to 0 and the start time to the new sample. -/
theorem resize_applies_fresh_grid {s : Life} {nw nh : Int}
    (hnw : s.new_width = some nw) (hnh : s.new_height = some nh)
    (h1 : 1 ≤ nw) (h2 : 1 ≤ nh) (vals : List Bool) (t : Int)
    (hv : vals.length = (nw * nh).toNat) :
    (s.apply_pending_resize vals t).width = nw
    ∧ (s.apply_pending_resize vals t).height = nh
    ∧ (s.apply_pending_resize vals t).cells_table =
        (List.range nh.toNat).map
          (fun k => (vals.drop (k * nw.toNat)).take nw.toNat)
    ∧ Rect (s.apply_pending_resize vals t).cells_table nh.toNat nw.toNat
    ∧ (s.apply_pending_resize vals t).prev_cells_table =
        (s.apply_pending_resize vals t).cells_table
    ∧ (s.apply_pending_resize vals t).frame_count = 0
    ∧ (s.apply_pending_resize vals t).start_time = t
    ∧ (s.apply_pending_resize vals t).new_width = none
    ∧ (s.apply_pending_resize vals t).new_height = none := by
  obtain ⟨W, rfl⟩ : ∃ W : Nat, nw = (W : Int) :=
    ⟨nw.toNat, (Int.toNat_of_nonneg (by omega)).symm⟩
  obtain ⟨H, rfl⟩ : ∃ H : Nat, nh = (H : Int) :=
    ⟨nh.toNat, (Int.toNat_of_nonneg (by omega)).symm⟩
  have hW : 1 ≤ W := by exact_mod_cast h1
  have hH : 1 ≤ H := by exact_mod_cast h2
  have hlen : vals.length = W * H := by
    rw [hv, show (W : Int) * (H : Int) = ((W * H : Nat) : Int) by push_cast; ring,
      Int.toNat_natCast]
  have hcond : (truthy s.new_width && truthy s.new_height) = true := by
    rw [hnw, hnh]
    unfold truthy
    rw [Bool.and_eq_true, decide_eq_true_eq, decide_eq_true_eq]
    constructor <;> omega
  have hres : s.apply_pending_resize vals t =
      { (({ s with width := (W : Int), height := (H : Int) } : Life).randomize_table vals) with
        new_width := none, new_height := none,
        start_time := t, frame_count := 0 } := by
    unfold Life.apply_pending_resize
    rw [hcond, if_pos rfl, hnw, hnh]
    rfl
  have hcells : (s.apply_pending_resize vals t).cells_table =
      (List.range H).map (fun k => (vals.drop (k * W)).take W) := by
    rw [hres]
    show (pyRange 0 ((W : Int) * (H : Int)) (W : Int)).map
      (fun i => pySlice vals i (i + (W : Int))) = _
    rw [pyRange_chunks W H hW, List.map_map]
    apply List.map_congr_left
    intro k hk
    have hk' : k < H := List.mem_range.mp hk
    show pySlice vals ((k * W : Nat) : Int) (((k * W : Nat) : Int) + (W : Int)) = _
    have hcast : ((k * W : Nat) : Int) + (W : Int) = ((k * W + W : Nat) : Int) := by
      push_cast
      ring
    rw [hcast, pySlice_chunk vals (k * W) (k * W + W) (by omega)
      (by rw [hlen]; calc k * W + W = (k + 1) * W := by ring
            _ ≤ H * W := Nat.mul_le_mul_right W hk'
            _ = W * H := Nat.mul_comm H W)]
    rw [Nat.add_sub_cancel_left]
  refine ⟨?_, ?_, ?_, ?_, ?_, ?_, ?_, ?_, ?_⟩
  · rw [hres]
    rfl
  · rw [hres]
    rfl
  · rw [hcells, Int.toNat_natCast, Int.toNat_natCast]
  · rw [hcells, Int.toNat_natCast, Int.toNat_natCast]
    constructor
    · simp
    · intro row hrow
      simp only [List.mem_map, List.mem_range] at hrow
      obtain ⟨k, hk, rfl⟩ := hrow
      rw [List.length_take, List.length_drop, hlen]
      have : k * W + W ≤ W * H := by
        calc k * W + W = (k + 1) * W := by ring
          _ ≤ H * W := Nat.mul_le_mul_right W hk
          _ = W * H := Nat.mul_comm H W
      omega
  · rw [hres]
    rfl
  · rw [hres]
  · rw [hres]
  · rw [hres]
  · rw [hres]

/-- Witness for C7: resizing `lf5` to 3×2 with six fresh draws. -/
theorem resize_applies_fresh_grid_witness :
    (lf5resize32.apply_pending_resize vals6 99).width = 3
    ∧ (lf5resize32.apply_pending_resize vals6 99).cells_table =
        (List.range (2 : Int).toNat).map
          (fun k => (vals6.drop (k * (3 : Int).toNat)).take (3 : Int).toNat)
    ∧ (lf5resize32.apply_pending_resize vals6 99).frame_count = 0 := by
  have hres := resize_applies_fresh_grid (s := lf5resize32) rfl rfl
    (by decide) (by decide) vals6 99 (by decide)
  exact ⟨hres.1, hres.2.2.1, hres.2.2.2.2.2.1⟩

/-! ## C2 -/

theorem ind_le_one (t : List (List Bool)) (h w : Nat) (a b : Int) :
    ind t h w a b ≤ 1 := by
  unfold ind
  split_ifs <;> omega

theorem nCount_eq_sum_over_offsets (t : List (List Bool)) (h w : Nat)
    (r c : Int) :
    nCount t h w r c =
      ((neighbourIndices r c).map (fun p => ind t h w p.1 p.2)).sum := by
  simp only [neighbourIndices, List.map_cons, List.map_nil, List.sum_cons,
    List.sum_nil, nCount]
  omega

theorem nCount_le_eight (t : List (List Bool)) (h w : Nat) (r c : Int) :
    nCount t h w r c ≤ 8 := by
  unfold nCount
  have h1 := ind_le_one t h w (r - 1) c
  have h2 := ind_le_one t h w r (c + 1)
  have h3 := ind_le_one t h w (r + 1) c
  have h4 := ind_le_one t h w r (c - 1)
  have h5 := ind_le_one t h w (r - 1) (c - 1)
  have h6 := ind_le_one t h w (r - 1) (c + 1)
  have h7 := ind_le_one t h w (r + 1) (c - 1)
  have h8 := ind_le_one t h w (r + 1) (c + 1)
  omega

theorem getElem?_eq_some_getD {α : Type} {l : List α} {n : Nat} (d : α)
    (h : n < l.length) : l[n]? = some (l.getD n d) := by
  rw [List.getElem?_eq_getElem h, List.getD_eq_getElem l d h]

theorem get2d?_isSome {t : List (List Bool)} {h w : Nat} (ht : Rect t h w)
    {a b : Int} (h1 : 0 ≤ a) (h2 : a < (h : Int)) (h3 : 0 ≤ b)
    (h4 : b < (w : Int)) : (get2d? t a b).isSome = true := by
  unfold get2d?
  have hla : a < (t.length : Int) := by rw [ht.1]; exact h2
  rw [pyGet_nonneg t h1 hla, getElem?_eq_some_getD [] (by omega)]
  simp only [Option.some_bind]
  have hrow : (t.getD a.toNat []).length = w := ht.rowD (by omega)
  rw [pyGet_nonneg _ h3 (by rw [hrow]; exact h4),
    getElem?_eq_some_getD false (by rw [hrow]; omega)]
  rfl

theorem filterMap3_all_some {e : Int → Option (Option Bool)} {a b c : Int}
    {u v z : Option Bool} (h1 : e a = some u) (h2 : e b = some v)
    (h3 : e c = some z) : List.filterMap e [a, b, c] = [u, v, z] := by
  simp [List.filterMap_cons, h1, h2, h3]

theorem filterMap3_mid_none {e : Int → Option (Option Bool)} {a b c : Int}
    {u z : Option Bool} (h1 : e a = some u) (h2 : e b = none)
    (h3 : e c = some z) : List.filterMap e [a, b, c] = [u, z] := by
  simp [List.filterMap_cons, h1, h2, h3]

theorem length_get_neighbours (g : Grid) {X Y : Int} (hY0 : 0 ≤ Y)
    (hYh : Y < g.y_size) : (g.get_neighbours X Y).length = 8 := by
  have hlen_noncenter : ∀ a : Int, a ≠ Y → (neighbourRow g X Y a).length = 3 := by
    intro a hne
    unfold neighbourRow
    by_cases hrow : a < 0 ∨ a = g.y_size
    · rw [if_pos hrow]
      rfl
    · rw [if_neg hrow]
      show (List.filterMap (neighbourEntry g X Y a) [X - 1, X, X + 1]).length = 3
      rw [filterMap3_all_some (entry_noncenter g hne (X - 1))
          (entry_noncenter g hne X) (entry_noncenter g hne (X + 1))]
      rfl
  have hlen_center : (neighbourRow g X Y Y).length = 2 := by
    unfold neighbourRow
    rw [if_neg (by omega)]
    show (List.filterMap (neighbourEntry g X Y Y) [X - 1, X, X + 1]).length = 2
    rw [filterMap3_mid_none (entry_center g (by omega)) (entry_skip g X Y)
      (entry_center g (by omega))]
    rfl
  unfold Grid.get_neighbours
  simp only [range3, List.map_cons, List.map_nil, List.flatten_cons,
    List.flatten_nil, List.append_nil, List.length_append]
  rw [hlen_noncenter (Y - 1) (by omega), hlen_center,
    hlen_noncenter (Y + 1) (by omega)]

/-- C2: for a rectangular grid and an in-bounds centre `(r, c)`, the
live-neighbour count examines exactly the eight adjacent offsets: main.py's
`get_alive_neighbours` equals the sum, over the eight offsets listed in the
source, of a contribution that is 0 for every offset falling outside the
grid bounds (no wrap-around) and the neighbour's alive state otherwise; the
count is at most 8; each offset the bounds guard admits addresses an
existing cell (the checked read returns a value, never an error); and
game.py's `get_neighbours` likewise yields exactly 8 entries whose sum is
the same count. -/
theorem neighbour_count_spec {t : List (List Bool)} {h w : Nat}
    (ht : Rect t h w) {r c : Nat} (hr : r < h) (hc : c < w) :
    (∀ s : Life, s.prev_cells_table = t → s.height = (h : Int) →
       s.width = (w : Int) →
       (s.get_alive_neighbours r c =
           ((neighbourIndices r c).map (fun p => ind t h w p.1 p.2)).sum
        ∧ s.get_alive_neighbours r c ≤ 8))
    ∧ (neighbourIndices (r : Int) (c : Int)).length = 8
    ∧ (∀ p ∈ neighbourIndices (r : Int) (c : Int),
        (p.1 < 0 ∨ (h : Int) ≤ p.1 ∨ p.2 < 0 ∨ (w : Int) ≤ p.2 →
           ind t h w p.1 p.2 = 0)
        ∧ (0 ≤ p.1 → p.1 < (h : Int) → 0 ≤ p.2 → p.2 < (w : Int) →
           (get2d? t p.1 p.2).isSome = true))
    ∧ (∀ g : Grid, g.cells = t → g.x_size = (w : Int) →
        g.y_size = (h : Int) →
        ((g.get_neighbours c r).length = 8
         ∧ optSum (g.get_neighbours c r) =
             ((neighbourIndices r c).map (fun p => ind t h w p.1 p.2)).sum)) := by
  refine ⟨?_, rfl, ?_, ?_⟩
  · intro s h1 h2 h3
    have he : s.get_alive_neighbours r c = nCount t h w r c := by
      rw [get_alive_neighbours_eq s h w h2 h3, h1]
    rw [he, nCount_eq_sum_over_offsets]
    exact ⟨rfl, by rw [← nCount_eq_sum_over_offsets]; exact nCount_le_eight t h w r c⟩
  · intro p _
    constructor
    · intro hout
      unfold ind
      rw [if_neg]
      rintro ⟨k1, k2, k3, k4, -⟩
      omega
    · intro k1 k2 k3 k4
      exact get2d?_isSome ht k1 k2 k3 k4
  · intro g h1 h2 h3
    constructor
    · exact length_get_neighbours g (Int.natCast_nonneg r) (by rw [h3]; exact_mod_cast hr)
    · rw [optSum_get_neighbours g h w h2 h3 (by exact_mod_cast hc)
        (Int.natCast_nonneg r) (by exact_mod_cast hr), h1,
        nCount_eq_sum_over_offsets]

/-- Witness for C2 at the 5×5 blinker, centre (2,2). -/
theorem neighbour_count_spec_witness :
    (lf5.get_alive_neighbours 2 2 =
        ((neighbourIndices 2 2).map (fun p => ind bl5 5 5 p.1 p.2)).sum
     ∧ lf5.get_alive_neighbours 2 2 ≤ 8)
    ∧ ((⟨5, 5, bl5⟩ : Grid).get_neighbours 2 2).length = 8 := by
  have hspec := neighbour_count_spec (t := bl5) (h := 5) (w := 5)
    (by decide) (r := 2) (c := 2) (by decide) (by decide)
  exact ⟨hspec.1 lf5 rfl rfl rfl, (hspec.2.2.2 ⟨5, 5, bl5⟩ rfl rfl rfl).1⟩

/-! ## C5 -/

theorem pyIndex_none {len : Nat} {i : Int}
    (h : (len : Int) ≤ i ∨ i < -(len : Int)) : pyIndex len i = none := by
  unfold pyIndex
  rcases h with h | h
  · rw [if_pos (by omega), if_neg (by omega)]
  · rw [if_neg (by omega), if_neg (by omega)]

theorem pyIndex_nonneg {len : Nat} {i : Int} (h0 : 0 ≤ i)
    (hi : i < (len : Int)) : pyIndex len i = some i.toNat := by
  unfold pyIndex
  rw [if_pos h0, if_pos hi]

theorem pyIndex_neg {len : Nat} {i : Int} (h0 : i < 0)
    (hi : -(len : Int) ≤ i) : pyIndex len i = pyIndex len (i + (len : Int)) := by
  unfold pyIndex
  rw [if_neg (by omega), if_pos (by omega), if_pos (by omega), if_pos (by omega)]
  congr 1
  omega

/-- C5 counterexample: on the 2×2 grid `demo2`, whose only live cell is at
(1,1): the in-bounds access `get_cell(1, 1)` does not return the stored
alive state — `get_cell` is a `@property` whose getter takes coordinates,
so in CPython every attribute access raises `TypeError` before any
subscripting — and `flip_cell(-1, -1)` does not fail either: Python's
negative indexing silently addresses the cell (1,1) counted from the
end. -/
theorem get_raises_and_negative_flip_wraps :
    demo2.get_cell 1 1 = none
    ∧ (demo2.flip_cell (-1) (-1)).isSome = true := by
  refine ⟨?_, ?_⟩ <;> rfl

/-- C5 amended: `get_cell` is unusable as an accessor — being declared
`@property` while still taking `(self, x, y)`, every access raises
`TypeError` (in and out of bounds alike), so no get ever returns a stored
state. `flip_cell` follows Python subscript semantics: it fails
(`IndexError`, modelled `none`) exactly when a subscript falls outside
`[-size, size)`; a negative subscript in `[-size, 0)` silently addresses a
cell counted from the end (flipping at such a coordinate equals flipping
at the coordinate shifted by the size); and a fully in-bounds nonnegative
`flip_cell` succeeds, toggling exactly the addressed cell `cells[y][x]`
(its second argument selects the row). -/
theorem cell_access_bounds {g : Grid} {h w : Nat} (ht : Rect g.cells h w) :
    (∀ x y : Int, g.get_cell x y = none)
    ∧ (∀ x y : Int, (h : Int) ≤ y ∨ y < -(h : Int) → g.flip_cell x y = none)
    ∧ (∀ x y : Int, 0 ≤ y → y < (h : Int) →
        ((w : Int) ≤ x ∨ x < -(w : Int)) → g.flip_cell x y = none)
    ∧ (∀ x y : Nat, x < w → y < h →
        g.flip_cell (x : Int) (y : Int) =
          some { g with cells := set2d g.cells y x (!get2d g.cells y x) })
    ∧ (∀ x y : Int, -(w : Int) ≤ x → x < 0 → 0 ≤ y → y < (h : Int) →
        g.flip_cell x y = g.flip_cell (x + (w : Int)) y)
    ∧ (∀ x y : Int, -(h : Int) ≤ y → y < 0 →
        g.flip_cell x y = g.flip_cell x (y + (h : Int))) := by
  have hlen : g.cells.length = h := ht.1
  refine ⟨?_, ?_, ?_, ?_, ?_, ?_⟩
  · intro x y
    rfl
  · intro x y hy
    unfold Grid.flip_cell
    rw [pyIndex_none (by omega)]
    rfl
  · intro x y hy1 hy2 hx
    unfold Grid.flip_cell
    rw [pyIndex_nonneg hy1 (by omega)]
    simp only [Option.some_bind]
    have hrow : (g.cells.getD y.toNat []).length = w := ht.rowD (by omega)
    rw [pyIndex_none (by omega)]
    rfl
  · intro x y hx hy
    unfold Grid.flip_cell
    rw [pyIndex_nonneg (by omega) (by omega), Int.toNat_natCast]
    simp only [Option.some_bind]
    have hrow : (g.cells.getD y []).length = w := ht.rowD hy
    rw [pyIndex_nonneg (by omega) (by omega), Int.toNat_natCast]
    rfl
  · intro x y hx1 hx2 hy1 hy2
    unfold Grid.flip_cell
    rw [pyIndex_nonneg hy1 (by omega)]
    simp only [Option.some_bind]
    have hrow : (g.cells.getD y.toNat []).length = w := ht.rowD (by omega)
    rw [pyIndex_neg hx2 (by omega), hrow]
  · intro x y hy1 hy2
    unfold Grid.flip_cell
    rw [pyIndex_neg hy2 (by omega), hlen]

/-- Witness for C5 (amended) on `demo2`. -/
theorem cell_access_bounds_witness :
    demo2.get_cell 0 1 = none
    ∧ demo2.flip_cell 0 2 = none
    ∧ demo2.flip_cell 3 1 = none
    ∧ demo2.flip_cell 0 1 =
        some { demo2 with cells := set2d demo2.cells 1 0 (!get2d demo2.cells 1 0) }
    ∧ demo2.flip_cell (-1) 1 = demo2.flip_cell (-1 + (2 : Int)) 1
    ∧ demo2.flip_cell 0 (-2) = demo2.flip_cell 0 (-2 + (2 : Int)) := by
  have hb := cell_access_bounds (g := demo2) (h := 2) (w := 2) (by decide)
  exact ⟨hb.1 0 1, hb.2.1 0 2 (by omega),
    hb.2.2.1 3 1 (by omega) (by omega) (by omega),
    hb.2.2.2.1 0 1 (by omega) (by omega),
    hb.2.2.2.2.1 (-1) 1 (by omega) (by omega) (by omega) (by omega),
    hb.2.2.2.2.2 0 (-2) (by omega) (by omega)⟩

/-! ## C9 -/

/-- C9 counterexample: the claim quantifies over *any* row, but a blinker
pushed against the top edge does not oscillate: from live cells
(0,1),(0,2),(0,3) on a 5×5 grid, one step leaves only the vertical domino
(0,2),(1,2), and the second step kills everything — two steps do not
return the original grid. -/
theorem top_row_blinker_dies :
    (Grid.update_grid_full ⟨5, 5, blTop5⟩).cells =
      [[false, false, true, false, false],
       [false, false, true, false, false],
       [false, false, false, false, false],
       [false, false, false, false, false],
       [false, false, false, false, false]]
    ∧ (Grid.update_grid_full (Grid.update_grid_full ⟨5, 5, blTop5⟩)).cells =
      List.replicate 5 (List.replicate 5 false)
    ∧ (Grid.update_grid_full (Grid.update_grid_full ⟨5, 5, blTop5⟩)).cells ≠
      blTop5 := by
  refine ⟨by decide, by decide, by decide⟩

theorem ind_of_hblinker {t : List (List Bool)} {h w r c : Nat}
    (hr1 : 1 ≤ r) (hr2 : r + 2 ≤ h) (hc : c + 3 ≤ w)
    (hpat : ∀ i < h, ∀ j < w,
      (get2d t i j = true ↔ (i = r ∧ (j = c ∨ j = c + 1 ∨ j = c + 2))))
    (a b : Int) :
    ind t h w a b =
      if a = (r : Int) ∧ (b = (c : Int) ∨ b = (c : Int) + 1 ∨ b = (c : Int) + 2)
      then 1 else 0 := by
  unfold ind
  by_cases hin : 0 ≤ a ∧ a < (h : Int) ∧ 0 ≤ b ∧ b < (w : Int)
  · obtain ⟨k1, k2, k3, k4⟩ := hin
    have hg := hpat a.toNat (by omega) b.toNat (by omega)
    by_cases hP : a = (r : Int) ∧
        (b = (c : Int) ∨ b = (c : Int) + 1 ∨ b = (c : Int) + 2)
    · rw [if_pos ⟨k1, k2, k3, k4, hg.mpr (by omega)⟩, if_pos hP]
    · rw [if_neg, if_neg hP]
      rintro ⟨-, -, -, -, h5⟩
      have hnat := hg.mp h5
      omega
  · rw [if_neg (fun hcon => hin ⟨hcon.1, hcon.2.1, hcon.2.2.1, hcon.2.2.2.1⟩),
      if_neg]
    intro hP
    apply hin
    omega

theorem ind_of_vblinker {t : List (List Bool)} {h w r c : Nat}
    (hr1 : 1 ≤ r) (hr2 : r + 2 ≤ h) (hc : c + 3 ≤ w)
    (hpat : ∀ i < h, ∀ j < w,
      (get2d t i j = true ↔ (j = c + 1 ∧ (i + 1 = r ∨ i = r ∨ i = r + 1))))
    (a b : Int) :
    ind t h w a b =
      if b = (c : Int) + 1 ∧ (a + 1 = (r : Int) ∨ a = (r : Int) ∨ a = (r : Int) + 1)
      then 1 else 0 := by
  unfold ind
  by_cases hin : 0 ≤ a ∧ a < (h : Int) ∧ 0 ≤ b ∧ b < (w : Int)
  · obtain ⟨k1, k2, k3, k4⟩ := hin
    have hg := hpat a.toNat (by omega) b.toNat (by omega)
    by_cases hP : b = (c : Int) + 1 ∧
        (a + 1 = (r : Int) ∨ a = (r : Int) ∨ a = (r : Int) + 1)
    · rw [if_pos ⟨k1, k2, k3, k4, hg.mpr (by omega)⟩, if_pos hP]
    · rw [if_neg, if_neg hP]
      rintro ⟨-, -, -, -, h5⟩
      have hnat := hg.mp h5
      omega
  · rw [if_neg (fun hcon => hin ⟨hcon.1, hcon.2.1, hcon.2.2.1, hcon.2.2.2.1⟩),
      if_neg]
    intro hP
    apply hin
    omega

set_option maxHeartbeats 1600000 in
theorem hblinker_step {t : List (List Bool)} {h w r c : Nat}
    (hr1 : 1 ≤ r) (hr2 : r + 2 ≤ h) (hc : c + 3 ≤ w)
    (hpat : ∀ i < h, ∀ j < w,
      (get2d t i j = true ↔ (i = r ∧ (j = c ∨ j = c + 1 ∨ j = c + 2)))) :
    (Grid.update_grid_full ⟨(w : Int), (h : Int), t⟩).cells =
      mkTable h w (fun i j => decide (j = c + 1 ∧ (i + 1 = r ∨ i = r ∨ i = r + 1))) := by
  apply rect_ext (rect_update_grid_full _ h w rfl rfl) (Rect.mkTable _)
  intro i hi j hj
  rw [update_grid_full_get _ h w rfl rfl hi hj, get2d_mkTable _ hi hj]
  have hij := hpat i hi j hj
  unfold nCount
  simp only [ind_of_hblinker hr1 hr2 hc hpat]
  cases hb : get2d t i j
  · rw [hb] at hij
    have hnpat : ¬(i = r ∧ (j = c ∨ j = c + 1 ∨ j = c + 2)) :=
      fun hp => Bool.false_ne_true (hij.mpr hp)
    show gameRule false _ = _
    rw [show (∀ n, gameRule false n = decide (n = 3)) from fun n => rfl]
    rw [decide_eq_decide]
    split_ifs <;> omega
  · rw [hb] at hij
    have hp := hij.mp rfl
    show gameRule true _ = _
    rw [show (∀ n, gameRule true n = decide (2 ≤ n ∧ n < 4)) from fun n => rfl]
    rw [decide_eq_decide]
    split_ifs <;> omega

set_option maxHeartbeats 1600000 in
theorem vblinker_step {t : List (List Bool)} {h w r c : Nat}
    (hr1 : 1 ≤ r) (hr2 : r + 2 ≤ h) (hc : c + 3 ≤ w)
    (hpat : ∀ i < h, ∀ j < w,
      (get2d t i j = true ↔ (j = c + 1 ∧ (i + 1 = r ∨ i = r ∨ i = r + 1)))) :
    (Grid.update_grid_full ⟨(w : Int), (h : Int), t⟩).cells =
      mkTable h w (fun i j => decide (i = r ∧ (j = c ∨ j = c + 1 ∨ j = c + 2))) := by
  apply rect_ext (rect_update_grid_full _ h w rfl rfl) (Rect.mkTable _)
  intro i hi j hj
  rw [update_grid_full_get _ h w rfl rfl hi hj, get2d_mkTable _ hi hj]
  have hij := hpat i hi j hj
  unfold nCount
  simp only [ind_of_vblinker hr1 hr2 hc hpat]
  cases hb : get2d t i j
  · rw [hb] at hij
    have hnpat : ¬(j = c + 1 ∧ (i + 1 = r ∨ i = r ∨ i = r + 1)) :=
      fun hp => Bool.false_ne_true (hij.mpr hp)
    show gameRule false _ = _
    rw [show (∀ n, gameRule false n = decide (n = 3)) from fun n => rfl]
    rw [decide_eq_decide]
    split_ifs <;> omega
  · rw [hb] at hij
    have hp := hij.mp rfl
    show gameRule true _ = _
    rw [show (∀ n, gameRule true n = decide (2 ≤ n ∧ n < 4)) from fun n => rfl]
    rw [decide_eq_decide]
    split_ifs <;> omega

/-- C9 amended: on a grid of width ≥ 5 and height ≥ 5 whose only live cells
are three horizontally consecutive cells in an *interior* row
(`1 ≤ r ≤ height - 2`; a blinker touching the top or bottom row dies
instead, see the counterexample), one step yields the three-cell vertical
line about the middle cell, and a second step returns exactly the original
grid. -/
theorem blinker_period_two {t : List (List Bool)} {h w r c : Nat}
    (ht : Rect t h w) (hw5 : 5 ≤ w) (hh5 : 5 ≤ h)
    (hr1 : 1 ≤ r) (hr2 : r + 2 ≤ h) (hc : c + 3 ≤ w)
    (hpat : ∀ i < h, ∀ j < w,
      (get2d t i j = true ↔ (i = r ∧ (j = c ∨ j = c + 1 ∨ j = c + 2)))) :
    (Grid.update_grid_full ⟨(w : Int), (h : Int), t⟩).cells =
      mkTable h w (fun i j => decide (j = c + 1 ∧ (i + 1 = r ∨ i = r ∨ i = r + 1)))
    ∧ (Grid.update_grid_full (Grid.update_grid_full ⟨(w : Int), (h : Int), t⟩)).cells
      = t := by
  have h1 := hblinker_step hr1 hr2 hc hpat
  refine ⟨h1, ?_⟩
  have hg1 : Grid.update_grid_full ⟨(w : Int), (h : Int), t⟩ =
      ⟨(w : Int), (h : Int),
        mkTable h w (fun i j => decide (j = c + 1 ∧ (i + 1 = r ∨ i = r ∨ i = r + 1)))⟩ := by
    calc Grid.update_grid_full ⟨(w : Int), (h : Int), t⟩ =
        ⟨(Grid.update_grid_full ⟨(w : Int), (h : Int), t⟩).x_size,
         (Grid.update_grid_full ⟨(w : Int), (h : Int), t⟩).y_size,
         (Grid.update_grid_full ⟨(w : Int), (h : Int), t⟩).cells⟩ := rfl
      _ = _ := by
        rw [h1]
        rfl
  rw [hg1]
  have hpat2 : ∀ i < h, ∀ j < w,
      (get2d (mkTable h w (fun i j =>
          decide (j = c + 1 ∧ (i + 1 = r ∨ i = r ∨ i = r + 1)))) i j = true ↔
        (j = c + 1 ∧ (i + 1 = r ∨ i = r ∨ i = r + 1))) := by
    intro i hi j hj
    rw [get2d_mkTable _ hi hj, decide_eq_true_eq]
  rw [vblinker_step hr1 hr2 hc hpat2]
  apply rect_ext (Rect.mkTable _) ht
  intro i hi j hj
  rw [get2d_mkTable _ hi hj]
  have hg := hpat i hi j hj
  cases hb : get2d t i j
  · rw [hb] at hg
    simp only [decide_eq_false_iff_not]
    intro hp
    exact Bool.false_ne_true (hg.mpr hp)
  · rw [hb] at hg
    simp only [decide_eq_true_eq]
    exact hg.mp rfl

/-- Witness for C9 (amended) at the 5×5 interior blinker `bl5`
(row 2, columns 1–3). -/
theorem blinker_period_two_witness :
    (Grid.update_grid_full ⟨(5 : Int), (5 : Int), bl5⟩).cells =
      mkTable 5 5 (fun i j => decide (j = 1 + 1 ∧ (i + 1 = 2 ∨ i = 2 ∨ i = 2 + 1)))
    ∧ (Grid.update_grid_full (Grid.update_grid_full ⟨(5 : Int), (5 : Int), bl5⟩)).cells
      = bl5 :=
  blinker_period_two (r := 2) (c := 1) (by decide) (by decide) (by decide)
    (by decide) (by decide) (by decide) (by decide)

end Conway
